import Mathlib

/-!
Shallow embedding of the satUSD liquidity monitor (monitor.py).

Numeric values (liquidity readings, thresholds, timestamps in seconds) are
modelled as rationals; the consecutive-failure counter is an integer, as in
the source (a Python int).  Text processing mirrors the Python string and
regex operations character by character.
-/

namespace SatUSD

/-- A character matched by the regex character class `[\d.]` (an ASCII digit
or a decimal point), as used by the patterns in `monitor.py`. -/
def isNumChar (c : Char) : Bool := c.isDigit || c = '.'

/-- Numeric value of a digit string, most significant first, as computed by
Python `float` on a digit run (`digitsToNat [] = 0`). -/
def digitsToNat (l : List Char) : ℕ :=
  l.foldl (fun acc c => acc * 10 + (c.toNat - 48)) 0

/-- Python `float(s)` restricted to strings drawn from the class `[\d.]+`:
succeeds exactly when there is at most one decimal point and at least one
digit; `float(".")` and `float("1.2.3")` raise `ValueError`, modelled as
`none`. -/
def pyFloat (l : List Char) : Option ℚ :=
  if l.count '.' = 0 then
    if l.isEmpty then none else some (digitsToNat l : ℚ)
  else if l.count '.' = 1 then
    let ip := l.takeWhile (fun c => c ≠ '.')
    let fp := (l.dropWhile (fun c => c ≠ '.')).tail
    if ip.isEmpty && fp.isEmpty then none
    else some ((digitsToNat ip : ℚ) + (digitsToNat fp : ℚ) / 10 ^ fp.length)
  else none

/-- First maximal run of `[\d.]` characters in a character list: the match of
`re.search(r'[\d.]+', text)`, scanning left to right. -/
def firstRun : List Char → Option (List Char)
  | [] => none
  | c :: rest =>
    if isNumChar c then some (c :: rest.takeWhile isNumChar)
    else firstRun rest

/-- Python `str.strip()`: drop whitespace from both ends. -/
def trimWs (l : List Char) : List Char :=
  ((l.dropWhile Char.isWhitespace).reverse.dropWhile Char.isWhitespace).reverse

/-- The `K/M/B` suffix handling of `parse_liquidity_value`: a single trailing
multiplier suffix, case-insensitive, is stripped and the (integer)
multiplier returned. -/
def applySuffix (l : List Char) : ℕ × List Char :=
  if l.getLast? = some 'K' ∨ l.getLast? = some 'k' then (1000, l.dropLast)
  else if l.getLast? = some 'M' ∨ l.getLast? = some 'm' then (1000000, l.dropLast)
  else if l.getLast? = some 'B' ∨ l.getLast? = some 'b' then (1000000000, l.dropLast)
  else (1, l)

/-- The preprocessing pipeline of `parse_liquidity_value`: remove every `$`
and `,`, strip whitespace, then split off a trailing `K/M/B` multiplier. -/
def preprocess (text : String) : ℕ × List Char :=
  applySuffix (trimWs (text.data.filter (fun c => c ≠ '$' && c ≠ ',')))

/-- `SatUSDMonitor.parse_liquidity_value`: empty input returns `None`;
otherwise `$` and `,` are removed, whitespace stripped, a trailing `K/M/B`
suffix sets a multiplier, the first `[\d.]+` run is extracted, and its
`float` value times the multiplier is returned; any failure yields `None`. -/
def parse_liquidity_value (text : String) : Option ℚ :=
  if text.isEmpty then none
  else
    match firstRun (preprocess text).2 with
    | none => none
    | some run => (pyFloat run).map (fun v => v * ((preprocess text).1 : ℚ))

/-- Evaluation rule for `parse_liquidity_value` once the preprocessing and
run extraction are known. -/
theorem parse_eval (s : String) (run : List Char) (hne : s.isEmpty = false)
    (hrun : firstRun (preprocess s).2 = some run) :
    parse_liquidity_value s = (pyFloat run).map (fun v => v * ((preprocess s).1 : ℚ)) := by
  simp only [parse_liquidity_value, hne, hrun, Bool.false_eq_true, if_false]

/-- Evaluation rule for `pyFloat` on a run with exactly one decimal point. -/
theorem pyFloat_dot_eval (l ip fp : List Char)
    (h1 : l.count '.' = 1)
    (hip : l.takeWhile (fun c => c ≠ '.') = ip)
    (hfp : (l.dropWhile (fun c => c ≠ '.')).tail = fp)
    (h2 : (ip.isEmpty && fp.isEmpty) = false) :
    pyFloat l = some ((digitsToNat ip : ℚ) + (digitsToNat fp : ℚ) / 10 ^ fp.length) := by
  simp only [pyFloat, h1, hip, hfp, h2]
  norm_num

/-- Evaluation rule for `pyFloat` on a pure digit run. -/
theorem pyFloat_int_eval (l : List Char) (h1 : l.count '.' = 0) (h2 : l.isEmpty = false) :
    pyFloat l = some (digitsToNat l : ℚ) := by
  simp only [pyFloat, h1, h2]
  norm_num

/-- Whatever `pyFloat` returns is non-negative. -/
theorem pyFloat_nonneg (l : List Char) (v : ℚ) (h : pyFloat l = some v) : 0 ≤ v := by
  simp only [pyFloat] at h
  split_ifs at h
  all_goals first
    | exact Option.noConfusion h
    | (injection h with h
       rw [← h]
       positivity)

/-- C4: Value parser contract.  `parse("$20.39") = 20.39`,
`parse("1.5K") = 1500.0`, `parse("2.3M") = 2300000.0`, `parse("") = null`,
`parse("abc") = null`; moreover, for every input string, an empty string,
the absence of any `[\d.]+` run after preprocessing, or a run failing
numeric conversion, all yield `null` (no exception escapes, as the
embedding is total). -/
theorem parse_liquidity_contract :
    parse_liquidity_value "$20.39" = some (2039/100) ∧
    parse_liquidity_value "1.5K" = some 1500 ∧
    parse_liquidity_value "2.3M" = some 2300000 ∧
    parse_liquidity_value "" = none ∧
    parse_liquidity_value "abc" = none ∧
    (∀ s : String, s.isEmpty = true → parse_liquidity_value s = none) ∧
    (∀ s : String, firstRun (preprocess s).2 = none → parse_liquidity_value s = none) ∧
    (∀ s : String, ∀ run : List Char, firstRun (preprocess s).2 = some run →
      pyFloat run = none → parse_liquidity_value s = none) := by
  refine ⟨?_, ?_, ?_, by decide, by decide, ?_, ?_, ?_⟩
  · rw [parse_eval "$20.39" ['2','0','.','3','9'] (by decide) (by decide),
      pyFloat_dot_eval ['2','0','.','3','9'] ['2','0'] ['3','9']
        (by decide) (by decide) (by decide) (by decide)]
    simp only [show digitsToNat ['2','0'] = 20 from by decide,
      show digitsToNat ['3','9'] = 39 from by decide,
      show (preprocess "$20.39").1 = 1 from by decide, Option.map_some']
    norm_num
  · rw [parse_eval "1.5K" ['1','.','5'] (by decide) (by decide),
      pyFloat_dot_eval ['1','.','5'] ['1'] ['5']
        (by decide) (by decide) (by decide) (by decide)]
    simp only [show digitsToNat ['1'] = 1 from by decide,
      show digitsToNat ['5'] = 5 from by decide,
      show (preprocess "1.5K").1 = 1000 from by decide, Option.map_some']
    norm_num
  · rw [parse_eval "2.3M" ['2','.','3'] (by decide) (by decide),
      pyFloat_dot_eval ['2','.','3'] ['2'] ['3']
        (by decide) (by decide) (by decide) (by decide)]
    simp only [show digitsToNat ['2'] = 2 from by decide,
      show digitsToNat ['3'] = 3 from by decide,
      show (preprocess "2.3M").1 = 1000000 from by decide, Option.map_some']
    norm_num
  · intro s h
    simp [parse_liquidity_value, h]
  · intro s h
    cases he : s.isEmpty <;> simp [parse_liquidity_value, he, h]
  · intro s run h1 h2
    cases he : s.isEmpty <;> simp [parse_liquidity_value, he, h1, h2]

/-- Witness for C4 at the concrete empty input. -/
theorem parse_liquidity_contract_witness : parse_liquidity_value "" = none :=
  parse_liquidity_contract.2.2.2.2.2.1 "" (by decide)

/-- C10: every non-null result of the value parser is non-negative (the
`[\d.]+` extraction admits no sign character), and the negative-looking
input "-5" parses to `5`, not `-5` or `null`. -/
theorem parse_liquidity_nonneg :
    (∀ s : String, ∀ v : ℚ, parse_liquidity_value s = some v → 0 ≤ v) ∧
    parse_liquidity_value "-5" = some 5 := by
  constructor
  · intro s v h
    cases he : s.isEmpty with
    | true => simp [parse_liquidity_value, he] at h
    | false =>
      cases hr : firstRun (preprocess s).2 with
      | none => simp [parse_liquidity_value, he, hr] at h
      | some run =>
        rw [parse_eval s run he hr, Option.map_eq_some'] at h
        obtain ⟨w, hw, hv⟩ := h
        rw [← hv]
        exact mul_nonneg (pyFloat_nonneg run w hw) (by positivity)
  · rw [parse_eval "-5" ['5'] (by decide) (by decide),
      pyFloat_int_eval ['5'] (by decide) (by decide)]
    simp only [show digitsToNat ['5'] = 5 from by decide,
      show (preprocess "-5").1 = 1 from by decide, Option.map_some']
    norm_num

/-- Witness for C10 at the concrete input "-5". -/
theorem parse_liquidity_nonneg_witness : (0 : ℚ) ≤ 5 :=
  parse_liquidity_nonneg.1 "-5" 5 parse_liquidity_nonneg.2

/-- The hard-coded failure-alert threshold of `SatUSDMonitor.__init__`
(`max_failures_before_alert = 3`). -/
def max_failures_before_alert : ℤ := 3

/-- The hard-coded heartbeat interval of `SatUSDMonitor.__init__`
(`heartbeat_interval_hours = 72`). -/
def heartbeat_interval_hours : ℚ := 72

/-- The configuration fields of `MONITOR_CONFIG` consulted by
`check_and_notify`. -/
structure Config where
  liquidity_threshold : ℚ
  notify_on_change_only : Bool
deriving Repr, DecidableEq

/-- The mutable fields of `SatUSDMonitor` driven by the poll cycle.
`last_state_above_threshold` is the Python tri-state
`None`/`False`/`True`; `consecutive_failures` is a Python int; the two
timestamps are seconds, `None` until first set. -/
structure MonitorState where
  last_state_above_threshold : Option Bool
  consecutive_failures : ℤ
  last_heartbeat : Option ℚ
  last_success_time : Option ℚ
deriving Repr, DecidableEq

/-- The state of a fresh `SatUSDMonitor()` object. -/
def initialState : MonitorState :=
  { last_state_above_threshold := none
    consecutive_failures := 0
    last_heartbeat := none
    last_success_time := none }

/-- Messages pushed through `send_telegram_message` during a poll cycle. -/
inductive Event where
  | thresholdAlert (liquidity : ℚ)
  | failureAlert (failures : ℤ)
deriving Repr, DecidableEq

/-- Outcome of one `check_and_notify` call: the updated monitor state, the
messages sent, and the boolean return value. -/
structure PollResult where
  state : MonitorState
  events : List Event
  ok : Bool
deriving Repr, DecidableEq

/-- Number of threshold alerts in an event list. -/
def countThresholdAlerts (es : List Event) : ℕ :=
  es.countP (fun e => match e with | .thresholdAlert _ => true | _ => false)

/-- Number of failure alerts in an event list. -/
def countFailureAlerts (es : List Event) : ℕ :=
  es.countP (fun e => match e with | .failureAlert _ => true | _ => false)

/-- `SatUSDMonitor.check_and_notify`, with the extraction result passed in
as `liquidity` (`none` models a failed extraction) and `now` the current
time.  On failure the counter is incremented and a failure alert is sent
when the counter reaches the threshold or a further multiple of it; on
success the counter resets, `last_success_time` is set, the strict
comparison `liquidity > threshold` is computed, the notification gate is
evaluated against the previous tri-state, and the tri-state is
unconditionally updated. -/
def check_and_notify (cfg : Config) (now : ℚ) (liquidity : Option ℚ)
    (s : MonitorState) : PollResult :=
  match liquidity with
  | none =>
    let cf := s.consecutive_failures + 1
    let events :=
      if cf ≥ max_failures_before_alert then
        if cf = max_failures_before_alert then [Event.failureAlert cf]
        else if cf % max_failures_before_alert = 0 then [Event.failureAlert cf]
        else []
      else []
    { state := { s with consecutive_failures := cf }, events := events, ok := false }
  | some liq =>
    let is_above : Bool := decide (liq > cfg.liquidity_threshold)
    let should_notify : Bool :=
      if is_above then
        if cfg.notify_on_change_only then
          match s.last_state_above_threshold with
          | some true => false
          | _ => true
        else true
      else false
    { state :=
        { s with
          consecutive_failures := 0
          last_success_time := some now
          last_state_above_threshold := some is_above }
      events := if should_notify then [Event.thresholdAlert liq] else []
      ok := true }

/-- `SatUSDMonitor.send_heartbeat`: first call records the baseline and
sends nothing; later calls send exactly when at least
`heartbeat_interval_hours` hours have elapsed, and reset the baseline only
when the Telegram send (outcome `sendOk`) succeeded.  The boolean result
records whether a heartbeat message was sent. -/
def send_heartbeat (now : ℚ) (sendOk : Bool) (s : MonitorState) :
    MonitorState × Bool :=
  match s.last_heartbeat with
  | none => ({ s with last_heartbeat := some now }, false)
  | some t =>
    if (now - t) / 3600 ≥ heartbeat_interval_hours then
      if sendOk then ({ s with last_heartbeat := some now }, true)
      else (s, true)
    else (s, false)

/-- The `except Exception` arm of `run_continuous`: a caught unexpected
error increments the failure counter and changes nothing else. -/
def continuous_error_step (s : MonitorState) : MonitorState :=
  { s with consecutive_failures := s.consecutive_failures + 1 }

/-- States of the monitor reachable from a fresh object by poll cycles,
heartbeat calls, and the continuous-mode error handler. -/
inductive Reachable : MonitorState → Prop where
  | init : Reachable initialState
  | poll (cfg : Config) (now : ℚ) (liquidity : Option ℚ) (s : MonitorState) :
      Reachable s → Reachable (check_and_notify cfg now liquidity s).state
  | heartbeat (now : ℚ) (sendOk : Bool) (s : MonitorState) :
      Reachable s → Reachable (send_heartbeat now sendOk s).1
  | caughtError (s : MonitorState) :
      Reachable s → Reachable (continuous_error_step s)

/-- A sequence of poll cycles: `check_and_notify` applied to each
extraction result in turn, threading the state and concatenating the
events. -/
def runPolls (cfg : Config) (now : ℚ) (readings : List (Option ℚ))
    (s : MonitorState) : MonitorState × List Event :=
  match readings with
  | [] => (s, [])
  | r :: rest =>
    let p := check_and_notify cfg now r s
    let q := runPolls cfg now rest p.state
    (q.1, p.events ++ q.2)

/-- C1: Notification gate over the reading sequence `t-1, t+1, t+2`
against threshold `t`, starting from unknown state.  In change-only mode
exactly one threshold alert fires (and the second above-poll, i.e. the
third poll, fires none); in always-notify mode each of the two above-polls
fires one, for a total of two. -/
theorem notify_gate_three_polls (t now : ℚ) (cf : ℤ) (hb ls : Option ℚ) :
    countThresholdAlerts
      (runPolls ⟨t, true⟩ now [some (t-1), some (t+1), some (t+2)]
        ⟨none, cf, hb, ls⟩).2 = 1 ∧
    countThresholdAlerts
      (check_and_notify ⟨t, true⟩ now (some (t+2))
        (runPolls ⟨t, true⟩ now [some (t-1), some (t+1)]
          ⟨none, cf, hb, ls⟩).1).events = 0 ∧
    countThresholdAlerts
      (runPolls ⟨t, false⟩ now [some (t-1), some (t+1), some (t+2)]
        ⟨none, cf, hb, ls⟩).2 = 2 ∧
    countThresholdAlerts
      (check_and_notify ⟨t, false⟩ now (some (t+1))
        (runPolls ⟨t, false⟩ now [some (t-1)] ⟨none, cf, hb, ls⟩).1).events = 1 ∧
    countThresholdAlerts
      (check_and_notify ⟨t, false⟩ now (some (t+2))
        (runPolls ⟨t, false⟩ now [some (t-1), some (t+1)]
          ⟨none, cf, hb, ls⟩).1).events = 1 := by
  have h1 : decide (t - 1 > t) = false := decide_eq_false (by linarith)
  have h2 : decide (t + 1 > t) = true := decide_eq_true (by linarith)
  have h3 : decide (t + 2 > t) = true := decide_eq_true (by linarith)
  simp [runPolls, check_and_notify, countThresholdAlerts, h1, h2, h3]

/-- C2: the above-threshold flag of a successful poll is the strict
comparison `reading > threshold`; at or below the threshold no threshold
alert is sent in either mode; and the tri-state field is unconditionally
set to the flag. -/
theorem strict_threshold_flag (r t now : ℚ) (m : Bool) (s : MonitorState) :
    (check_and_notify ⟨t, m⟩ now (some r) s).state.last_state_above_threshold
      = some (decide (r > t)) ∧
    (r ≤ t →
      countThresholdAlerts (check_and_notify ⟨t, m⟩ now (some r) s).events = 0) := by
  constructor
  · simp [check_and_notify]
  · intro h
    have hd : decide (r > t) = false := decide_eq_false (not_lt.mpr h)
    simp [check_and_notify, countThresholdAlerts, hd]

/-- Witness for C2 with reading 1 at threshold 2. -/
theorem strict_threshold_flag_witness :
    countThresholdAlerts
      (check_and_notify ⟨2, false⟩ 0 (some 1) initialState).events = 0 :=
  (strict_threshold_flag 1 2 0 false initialState).2 (by norm_num)

/-- C9: a failed poll only increments the failure counter (and possibly
emits a failure alert): the tri-state, the last-success timestamp and the
heartbeat baseline are all left unchanged, and no threshold alert is
emitted. -/
theorem failed_poll_frame (cfg : Config) (now : ℚ) (s : MonitorState) :
    (check_and_notify cfg now none s).state.last_state_above_threshold
      = s.last_state_above_threshold ∧
    (check_and_notify cfg now none s).state.last_success_time
      = s.last_success_time ∧
    (check_and_notify cfg now none s).state.last_heartbeat
      = s.last_heartbeat ∧
    (check_and_notify cfg now none s).state.consecutive_failures
      = s.consecutive_failures + 1 ∧
    countThresholdAlerts (check_and_notify cfg now none s).events = 0 := by
  refine ⟨by simp [check_and_notify], by simp [check_and_notify],
    by simp [check_and_notify], by simp [check_and_notify], ?_⟩
  simp only [check_and_notify]
  split_ifs <;> simp [countThresholdAlerts]

/-- A single failed poll from a non-negative counter value `m` emits a
failure alert exactly when the new counter `m+1` is a multiple of 3, and
increments the counter. -/
theorem fail_poll_events (cfg : Config) (now : ℚ) (s : MonitorState) (m : ℕ)
    (h : s.consecutive_failures = (m : ℤ)) :
    countFailureAlerts (check_and_notify cfg now none s).events
      = (if (m + 1) % 3 = 0 then 1 else 0) ∧
    (check_and_notify cfg now none s).state.consecutive_failures = (m : ℤ) + 1 := by
  constructor
  · simp only [check_and_notify, h, max_failures_before_alert]
    by_cases c : (m + 1) % 3 = 0
    · rw [if_pos c]
      by_cases c3 : (m : ℤ) + 1 = 3
      · rw [if_pos (by omega), if_pos c3]
        simp [countFailureAlerts]
      · rw [if_pos (by omega), if_neg c3, if_pos (by omega)]
        simp [countFailureAlerts]
    · rw [if_neg c]
      by_cases c1 : (m : ℤ) + 1 ≥ 3
      · rw [if_pos c1, if_neg (by omega), if_neg (by omega)]
        simp [countFailureAlerts]
      · rw [if_neg c1]
        simp [countFailureAlerts]
  · simp [check_and_notify, h]

/-- Running `n` consecutive failed polls from counter value `m` emits
`(m+n)/3 - m/3` failure alerts and leaves the counter at `m + n`. -/
theorem fail_streak_general (cfg : Config) (now : ℚ) :
    ∀ (n m : ℕ) (s : MonitorState), s.consecutive_failures = (m : ℤ) →
      countFailureAlerts (runPolls cfg now (List.replicate n none) s).2
        = (m + n) / 3 - m / 3 ∧
      (runPolls cfg now (List.replicate n none) s).1.consecutive_failures
        = (m : ℤ) + n := by
  intro n
  induction n with
  | zero =>
    intro m s h
    simp [runPolls, countFailureAlerts, h]
  | succ n ih =>
    intro m s h
    obtain ⟨he, hc⟩ := fail_poll_events cfg now s m h
    have hcast : (check_and_notify cfg now none s).state.consecutive_failures
        = ((m + 1 : ℕ) : ℤ) := by rw [hc]; push_cast; ring
    obtain ⟨ihe, ihc⟩ := ih (m + 1) _ hcast
    refine ⟨?_, ?_⟩
    · show countFailureAlerts
        ((check_and_notify cfg now none s).events ++
          (runPolls cfg now (List.replicate n none)
            (check_and_notify cfg now none s).state).2) = _
      rw [countFailureAlerts, List.countP_append, ← countFailureAlerts,
        ← countFailureAlerts, he, ihe]
      by_cases c : (m + 1) % 3 = 0
      · rw [if_pos c]
        omega
      · rw [if_neg c]
        omega
    · show (runPolls cfg now (List.replicate n none)
          (check_and_notify cfg now none s).state).1.consecutive_failures = _
      rw [ihc]
      push_cast
      ring

/-- C3: failure-streak alerting.  On a failed poll the alert fires exactly
when the resulting counter is a (positive) multiple of 3; from a zero
streak, `n` consecutive failures produce `n/3` alerts — so exactly one
after 3 and exactly two after 6 — and any successful poll resets the
counter to 0. -/
theorem failure_streak (cfg : Config) (now : ℚ) :
    (∀ (s : MonitorState) (m : ℕ), s.consecutive_failures = (m : ℤ) →
      (countFailureAlerts (check_and_notify cfg now none s).events = 1 ↔
        (m + 1) % 3 = 0)) ∧
    (∀ s : MonitorState, s.consecutive_failures = 0 → ∀ n : ℕ,
      countFailureAlerts (runPolls cfg now (List.replicate n none) s).2 = n / 3) ∧
    (∀ s : MonitorState, s.consecutive_failures = 0 →
      countFailureAlerts (runPolls cfg now (List.replicate 3 none) s).2 = 1 ∧
      countFailureAlerts (runPolls cfg now (List.replicate 6 none) s).2 = 2) ∧
    (∀ (r : ℚ) (s : MonitorState),
      (check_and_notify cfg now (some r) s).state.consecutive_failures = 0) := by
  have key : ∀ s : MonitorState, s.consecutive_failures = 0 → ∀ n : ℕ,
      countFailureAlerts (runPolls cfg now (List.replicate n none) s).2 = n / 3 := by
    intro s h n
    have := (fail_streak_general cfg now n 0 s (by exact_mod_cast h)).1
    simpa using this
  refine ⟨?_, key, ?_, ?_⟩
  · intro s m h
    rw [(fail_poll_events cfg now s m h).1]
    split_ifs with c <;> simp [c]
  · intro s h
    exact ⟨key s h 3, key s h 6⟩
  · intro r s
    simp [check_and_notify]

/-- Witness for C3: three consecutive failed polls from a fresh monitor
produce exactly one failure alert. -/
theorem failure_streak_witness :
    countFailureAlerts
      (runPolls ⟨100, false⟩ 0 (List.replicate 3 none) initialState).2 = 1 :=
  ((failure_streak ⟨100, false⟩ 0).2.2.1 initialState rfl).1

/-- C6: heartbeat protocol.  The first invocation records the baseline and
sends nothing; a later invocation sends exactly when at least 72 hours
have elapsed since the baseline; the baseline moves to `now` only on a
successful send, and is unchanged on a failed send or when the interval
has not elapsed. -/
theorem heartbeat_protocol (now t : ℚ) (ok : Bool) (s : MonitorState) :
    (s.last_heartbeat = none →
      send_heartbeat now ok s = ({ s with last_heartbeat := some now }, false)) ∧
    (s.last_heartbeat = some t →
      ((send_heartbeat now ok s).2 = true ↔
        (now - t) / 3600 ≥ heartbeat_interval_hours)) ∧
    (s.last_heartbeat = some t → (now - t) / 3600 ≥ heartbeat_interval_hours →
      ok = true →
      send_heartbeat now ok s = ({ s with last_heartbeat := some now }, true)) ∧
    (s.last_heartbeat = some t → (now - t) / 3600 ≥ heartbeat_interval_hours →
      ok = false → send_heartbeat now ok s = (s, true)) ∧
    (s.last_heartbeat = some t →
      ¬ (now - t) / 3600 ≥ heartbeat_interval_hours →
      send_heartbeat now ok s = (s, false)) := by
  refine ⟨?_, ?_, ?_, ?_, ?_⟩
  · intro h
    simp [send_heartbeat, h]
  · intro h
    simp only [send_heartbeat, h]
    split_ifs with hi hok <;> simp [hi]
  · intro h hi hok
    simp [send_heartbeat, h, hi, hok]
  · intro h hi hok
    simp [send_heartbeat, h, hi, hok]
  · intro h hi
    simp [send_heartbeat, h, hi]

/-- Witness for C6: the first heartbeat call on a fresh monitor records the
baseline and sends nothing. -/
theorem heartbeat_protocol_witness :
    send_heartbeat 0 false initialState
      = ({ initialState with last_heartbeat := some 0 }, false) :=
  (heartbeat_protocol 0 0 false initialState).1 rfl

/-- The heartbeat routine never touches the failure counter. -/
theorem send_heartbeat_preserves_cf (now : ℚ) (ok : Bool) (s : MonitorState) :
    (send_heartbeat now ok s).1.consecutive_failures = s.consecutive_failures := by
  rcases h : s.last_heartbeat with _ | t
  · simp [send_heartbeat, h]
  · simp only [send_heartbeat, h]
    split_ifs <;> rfl

/-- C8: the failure counter increments by exactly 1 on a failed poll,
resets to 0 exactly on a successful poll, increments by 1 on a caught
continuous-mode error, is untouched by the heartbeat routine, and is
non-negative in every reachable state. -/
theorem consecutive_failures_invariant :
    (∀ (cfg : Config) (now : ℚ) (s : MonitorState),
      (check_and_notify cfg now none s).state.consecutive_failures
        = s.consecutive_failures + 1) ∧
    (∀ (cfg : Config) (now v : ℚ) (s : MonitorState),
      (check_and_notify cfg now (some v) s).state.consecutive_failures = 0) ∧
    (∀ s : MonitorState,
      (continuous_error_step s).consecutive_failures
        = s.consecutive_failures + 1) ∧
    (∀ (now : ℚ) (ok : Bool) (s : MonitorState),
      (send_heartbeat now ok s).1.consecutive_failures
        = s.consecutive_failures) ∧
    (∀ s : MonitorState, Reachable s → 0 ≤ s.consecutive_failures) := by
  refine ⟨fun cfg now s => by simp [check_and_notify],
    fun cfg now v s => by simp [check_and_notify],
    fun s => by simp [continuous_error_step],
    send_heartbeat_preserves_cf, ?_⟩
  intro s h
  induction h with
  | init => simp [initialState]
  | poll cfg now liquidity s' _ ih =>
    cases liquidity with
    | none =>
      simp only [check_and_notify]
      omega
    | some v => simp [check_and_notify]
  | heartbeat now sendOk s' _ ih =>
    rw [send_heartbeat_preserves_cf]
    exact ih
  | caughtError s' _ ih =>
    simp only [continuous_error_step]
    omega

/-- Witness for C8 at the initial state. -/
theorem consecutive_failures_invariant_witness :
    0 ≤ initialState.consecutive_failures :=
  consecutive_failures_invariant.2.2.2.2 initialState Reachable.init

/-- The literal asset marker "satUSD-v1" searched for in row text. -/
def satMarker : List Char := "satUSD-v1".data

/-- The primary heuristic regex
`([\d.]+)\s*satUSD-v1\s*\$?([\d.]+)` matched at the head of a character
list.  The pattern is backtracking-free here: a shorter first group leaves
a `[\d.]` character where `\s*satUSD` must match, and dropping the
optional `$` leaves `$` where `[\d.]+` must match, so the greedy reading
is the only possible one. -/
def matchPrimAt (l : List Char) : Option (List Char × List Char) :=
  let g1 := l.takeWhile isNumChar
  if g1.isEmpty then none
  else
    let r2 := (l.dropWhile isNumChar).dropWhile Char.isWhitespace
    if r2.take satMarker.length = satMarker then
      let r4 := (r2.drop satMarker.length).dropWhile Char.isWhitespace
      let r5 := if r4.head? = some '$' then r4.tail else r4
      let g2 := r5.takeWhile isNumChar
      if g2.isEmpty then none else some (g1, g2)
    else none

/-- `re.search` for the primary heuristic: try every start position left to
right and return the first match's two captured groups. -/
def searchPrim : List Char → Option (List Char × List Char)
  | [] => none
  | c :: rest =>
    match matchPrimAt (c :: rest) with
    | some g => some g
    | none => searchPrim rest

/-- Fuelled scan behind `findDollar`; each step strictly shortens the
list while spending one unit of fuel, so fuel equal to the list length
never runs out before the list does. -/
def findDollarAux : ℕ → List Char → List (List Char)
  | 0, _ => []
  | _, [] => []
  | fuel + 1, c :: rest =>
    if c = '$' ∧ rest.takeWhile isNumChar ≠ [] then
      rest.takeWhile isNumChar :: findDollarAux fuel (rest.dropWhile isNumChar)
    else findDollarAux fuel rest

/-- `re.findall(r'\$([\d.]+)', row_text)`: every `$` immediately followed
by a non-empty `[\d.]` run contributes its run, scanning resuming after
each match. -/
def findDollar (l : List Char) : List (List Char) := findDollarAux l.length l

/-- The per-row extraction of `get_liquidity_from_page`: the primary
heuristic wins when it matches (its second captured group, converted by
`float`, is the liquidity); otherwise all `$<number>` occurrences are
collected and, when at least two exist, the second-to-last is converted.
A `float` conversion error is modelled as `none`. -/
def extractFromRow (row : List Char) : Option ℚ :=
  match searchPrim row with
  | some g => pyFloat g.2
  | none =>
    let numbers := findDollar row
    if 2 ≤ numbers.length then pyFloat (numbers.getD (numbers.length - 2) [])
    else none

/-- C5: row extraction heuristics.  The primary heuristic matches
`<number> satUSD-v1 $<number>` and, when it matches, the second captured
number is the result; only when it does not match is the fallback used,
which requires at least two `$<number>` occurrences and picks the
second-to-last.  The concrete rows exercise both heuristics and the
no-result case. -/
theorem row_extraction_heuristics :
    (∀ (row : List Char) (g : List Char × List Char), searchPrim row = some g →
      extractFromRow row = pyFloat g.2) ∧
    (∀ row : List Char, searchPrim row = none → 2 ≤ (findDollar row).length →
      extractFromRow row
        = pyFloat ((findDollar row).getD ((findDollar row).length - 2) [])) ∧
    (∀ row : List Char, searchPrim row = none → (findDollar row).length < 2 →
      extractFromRow row = none) ∧
    searchPrim ("100.5 satUSD-v1 $250.75 $1.00".data)
      = some (['1','0','0','.','5'], ['2','5','0','.','7','5']) ∧
    extractFromRow ("100.5 satUSD-v1 $250.75 $1.00".data) = some (25075/100) ∧
    searchPrim ("satUSD-v1 $250.75 $1.00".data) = none ∧
    findDollar ("satUSD-v1 $250.75 $1.00".data)
      = [['2','5','0','.','7','5'], ['1','.','0','0']] ∧
    extractFromRow ("satUSD-v1 $250.75 $1.00".data) = some (25075/100) ∧
    extractFromRow ("satUSD-v1 $5.00".data) = none := by
  have hfloat : pyFloat ['2','5','0','.','7','5'] = some (25075/100) := by
    rw [pyFloat_dot_eval ['2','5','0','.','7','5'] ['2','5','0'] ['7','5']
      (by decide) (by decide) (by decide) (by decide)]
    simp only [show digitsToNat ['2','5','0'] = 250 from by decide,
      show digitsToNat ['7','5'] = 75 from by decide]
    norm_num
  refine ⟨?_, ?_, ?_, by decide, ?_, by decide, by decide, ?_, ?_⟩
  · intro row g h
    simp [extractFromRow, h]
  · intro row h h2
    simp [extractFromRow, h, h2]
  · intro row h h2
    simp [extractFromRow, h, Nat.not_le.mpr h2]
  · have hs : searchPrim ("100.5 satUSD-v1 $250.75 $1.00".data)
        = some (['1','0','0','.','5'], ['2','5','0','.','7','5']) := by decide
    simp [extractFromRow, hs, hfloat]
  · have hn : searchPrim ("satUSD-v1 $250.75 $1.00".data) = none := by decide
    have hf : findDollar ("satUSD-v1 $250.75 $1.00".data)
        = [['2','5','0','.','7','5'], ['1','.','0','0']] := by decide
    simp [extractFromRow, hn, hf, List.getD, hfloat]
  · have hn : searchPrim ("satUSD-v1 $5.00".data) = none := by decide
    have hf : findDollar ("satUSD-v1 $5.00".data) = [['5','.','0','0']] := by decide
    simp [extractFromRow, hn, hf]

/-- Witness for C5: the fallback clause applied to a row with a single
dollar value yields no result. -/
theorem row_extraction_heuristics_witness :
    extractFromRow ("satUSD-v1 $5.00".data) = none :=
  row_extraction_heuristics.2.2.1 ("satUSD-v1 $5.00".data) (by decide) (by decide)

/-- The retry loop of `get_liquidity_from_page`, abstracted over the
per-attempt outcome `attempt i` (browser navigation, row scan and parse of
attempt number `i`, `none` when the attempt fails).  Returns the final
result together with the number of attempts performed; `i` counts the
attempts already made. -/
def retryAux (attempt : ℕ → Option ℚ) : ℕ → ℕ → Option ℚ × ℕ
  | 0, i => (none, i)
  | n + 1, i =>
    match attempt i with
    | some v => (some v, i + 1)
    | none => retryAux attempt n (i + 1)

/-- `SatUSDMonitor.get_liquidity_from_page` with `retry_count` attempts:
iterate attempts from the first, returning the first successful value, or
`none` when every attempt failed. -/
def get_liquidity_from_page (attempt : ℕ → Option ℚ) (retry_count : ℕ) :
    Option ℚ × ℕ :=
  retryAux attempt retry_count 0

/-- The retry loop from offset `i` fails exactly when the next `n`
attempts all fail. -/
theorem retryAux_none_iff (attempt : ℕ → Option ℚ) :
    ∀ (n i : ℕ), (retryAux attempt n i).1 = none ↔ ∀ k < n, attempt (i + k) = none := by
  intro n
  induction n with
  | zero => intro i; simp [retryAux]
  | succ n ih =>
    intro i
    cases h : attempt i with
    | some v =>
      simp only [retryAux, h]
      constructor
      · intro hc
        exact absurd hc (by simp)
      · intro hall
        have := hall 0 (Nat.succ_pos n)
        rw [Nat.add_zero] at this
        rw [this] at h
        exact Option.noConfusion h
    | none =>
      simp only [retryAux, h, ih (i + 1)]
      constructor
      · intro hall k hk
        cases k with
        | zero => simpa using h
        | succ k =>
          have := hall k (by omega)
          rw [show i + 1 + k = i + (k + 1) from by omega] at this
          exact this
      · intro hall k hk
        have := hall (k + 1) (by omega)
        rw [show i + (k + 1) = i + 1 + k from by omega] at this
        exact this

/-- The retry loop from offset `i` stops at the first successful attempt,
returning its value and having performed exactly `j + 1` further
attempts. -/
theorem retryAux_first_success (attempt : ℕ → Option ℚ) :
    ∀ (n j i : ℕ) (v : ℚ), j < n → (∀ k < j, attempt (i + k) = none) →
      attempt (i + j) = some v → retryAux attempt n i = (some v, i + j + 1) := by
  intro n
  induction n with
  | zero => intro j i v hj; omega
  | succ n ih =>
    intro j i v hj hfail hsucc
    cases j with
    | zero =>
      rw [Nat.add_zero] at hsucc
      simp [retryAux, hsucc]
    | succ j =>
      have h0 : attempt i = none := by
        have := hfail 0 (Nat.succ_pos j)
        rwa [Nat.add_zero] at this
      have hfail' : ∀ k < j, attempt (i + 1 + k) = none := by
        intro k hk
        have := hfail (k + 1) (by omega)
        rwa [show i + (k + 1) = i + 1 + k from by omega] at this
      have hsucc' : attempt (i + 1 + j) = some v := by
        rwa [show i + (j + 1) = i + 1 + j from by omega] at hsucc
      have := ih j (i + 1) v (by omega) hfail' hsucc'
      simp only [retryAux, h0, this]
      congr 1
      omega

/-- C7: extraction retry.  With `n` attempts the call returns `none`
exactly when all `n` attempts fail; it returns the first successful
attempt's value having performed exactly one more attempt than the number
of failures before it; and with an attempt oracle failing twice then
succeeding, a 3-attempt call returns the successful value after exactly 3
attempts. -/
theorem extraction_retry (attempt : ℕ → Option ℚ) (n : ℕ) :
    ((get_liquidity_from_page attempt n).1 = none ↔ ∀ k < n, attempt k = none) ∧
    (∀ (j : ℕ) (v : ℚ), j < n → (∀ k < j, attempt k = none) →
      attempt j = some v → get_liquidity_from_page attempt n = (some v, j + 1)) ∧
    (∀ v : ℚ,
      get_liquidity_from_page (fun i => if i < 2 then none else some v) 3
        = (some v, 3)) := by
  refine ⟨?_, ?_, ?_⟩
  · rw [get_liquidity_from_page, retryAux_none_iff]
    simp
  · intro j v hj hfail hsucc
    rw [get_liquidity_from_page,
      retryAux_first_success attempt n j 0 v hj (by simpa using hfail) (by simpa using hsucc)]
    simp
  · intro v
    rfl

/-- Witness for C7: the fail-twice-then-succeed oracle with value 7. -/
theorem extraction_retry_witness :
    get_liquidity_from_page (fun i => if i < 2 then none else some (7 : ℚ)) 3
      = (some 7, 3) :=
  (extraction_retry (fun i => if i < 2 then none else some (7 : ℚ)) 3).2.1 2 7
    (by omega) (fun k hk => by simp [hk]) (by norm_num)

end SatUSD
